import Mathlib

/-!
Verification of zxlive's latex rendering helper (`zxlive/latex_render.py`)
and of the session-state persistence subsystem described in the
specification (its tests live in `test/test_session_state.py`; the
subsystem itself is modelled from the spec where noted).

Strings are embedded as `List Char` at the byte/character level; Python
floats are modelled with rationals (plus explicit infinity/NaN values).
-/

namespace ZxLive

/-! ## latex_render.py : character classes and small helpers -/

/-- ASCII letter, as the Python regex class `[a-zA-Z]`. -/
def isAsciiLetter (c : Char) : Bool :=
  ('a' ≤ c && c ≤ 'z') || ('A' ≤ c && c ≤ 'Z')

/-- Python whitespace for byte strings: the regex class `\s` and the
characters `str.strip()` / `str.split()` treat as separators (ASCII range). -/
def isPySpace (c : Char) : Bool :=
  c == ' ' || c == '\t' || c == '\n' || c == '\r' || c == '\x0c' || c == '\x0b'

/-- Python `str.strip()` with no argument: drop whitespace from both ends. -/
def pyStrip (cs : List Char) : List Char :=
  ((cs.dropWhile isPySpace).reverse.dropWhile isPySpace).reverse

/-- Helper for `splitWs`: accumulate the current word (reversed). -/
def splitWsAux (acc : List Char) : List Char → List (List Char)
  | [] => if acc.isEmpty then [] else [acc.reverse]
  | c :: rest =>
    if isPySpace c then
      if acc.isEmpty then splitWsAux [] rest
      else acc.reverse :: splitWsAux [] rest
    else splitWsAux (c :: acc) rest

/-- Python `str.split()` with no argument: split on whitespace runs,
discarding empty fields. -/
def splitWs (cs : List Char) : List (List Char) := splitWsAux [] cs

/-- Consume an exact literal from the front of the input. -/
def dropLit : List Char → List Char → Option (List Char)
  | [], cs => some cs
  | _ :: _, [] => none
  | l :: ls, c :: cs => if c = l then dropLit ls cs else none

/-- Match `\x7b([^\x7d]*)\x7d` (a braced group): returns the capture and the rest. -/
def matchBraceArg : List Char → Option (List Char × List Char)
  | '\x7b' :: rest =>
    let arg := rest.takeWhile (fun c => c ≠ '\x7d')
    match rest.dropWhile (fun c => c ≠ '\x7d') with
    | '\x7d' :: r => some (arg, r)
    | _ => none
  | _ => none

/-- Match the pattern of pass 1 of `_preprocess_dirac` at this position and
return the replacement text together with the rest of the input. -/
def matchKet (cs : List Char) : Option (List Char × List Char) :=
  match dropLit ['\\', 'k', 'e', 't'] cs with
  | none => none
  | some r1 =>
    match matchBraceArg (r1.dropWhile isPySpace) with
    | none => none
    | some (a, r2) =>
      some (['|', '\x7b'] ++ a ++ ['\x7d', '\\', 'r', 'a', 'n', 'g', 'l', 'e'], r2)

/-- Pass 2 of `_preprocess_dirac`: `\bra` becomes `\langle...|`. -/
def matchBra (cs : List Char) : Option (List Char × List Char) :=
  match dropLit ['\\', 'b', 'r', 'a'] cs with
  | none => none
  | some r1 =>
    match matchBraceArg (r1.dropWhile isPySpace) with
    | none => none
    | some (a, r2) =>
      some (['\\', 'l', 'a', 'n', 'g', 'l', 'e', '\x7b'] ++ a ++ ['\x7d', '|'], r2)

/-- Pass 3 of `_preprocess_dirac`: the two-argument `\braket` form. -/
def matchBraket2 (cs : List Char) : Option (List Char × List Char) :=
  match dropLit ['\\', 'b', 'r', 'a', 'k', 'e', 't'] cs with
  | none => none
  | some r1 =>
    match matchBraceArg (r1.dropWhile isPySpace) with
    | none => none
    | some (a, r2) =>
      match matchBraceArg (r2.dropWhile isPySpace) with
      | none => none
      | some (b, r3) =>
        some (['\\', 'l', 'a', 'n', 'g', 'l', 'e', '\x7b'] ++ a ++ ['\x7d', '|', '\x7b']
          ++ b ++ ['\x7d', '\\', 'r', 'a', 'n', 'g', 'l', 'e'], r3)

/-- Pass 4 of `_preprocess_dirac`: the one-argument `\braket` form. -/
def matchBraket1 (cs : List Char) : Option (List Char × List Char) :=
  match dropLit ['\\', 'b', 'r', 'a', 'k', 'e', 't'] cs with
  | none => none
  | some r1 =>
    match matchBraceArg (r1.dropWhile isPySpace) with
    | none => none
    | some (a, r2) =>
      some (['\\', 'l', 'a', 'n', 'g', 'l', 'e', '\x7b'] ++ a ++ ['\x7d', '\\', 'r', 'a', 'n', 'g', 'l', 'e'], r2)

/-- `re.sub` over one pattern: leftmost, non-overlapping matches; the matcher
returns the replacement text and the input after the match. The fuel is set
to the input length plus one, which the scan never exhausts since every match
consumes at least one character. -/
def reSub (m : List Char → Option (List Char × List Char)) : Nat → List Char → List Char
  | 0, cs => cs
  | _ + 1, [] => []
  | fuel + 1, c :: rest =>
    match m (c :: rest) with
    | some (repl, after) => repl ++ reSub m fuel after
    | none => c :: reSub m fuel rest

/-- Embedding of `_preprocess_dirac`: the four `re.sub` passes in source order. -/
def preprocessDirac (cs : List Char) : List Char :=
  let r1 := reSub matchKet (cs.length + 1) cs
  let r2 := reSub matchBra (r1.length + 1) r1
  let r3 := reSub matchBraket2 (r2.length + 1) r2
  reSub matchBraket1 (r3.length + 1) r3

/-- `html.escape` on one character (quote=True, the default). -/
def htmlEscapeChar (c : Char) : List Char :=
  if c = '&' then ['&', 'a', 'm', 'p', ';']
  else if c = '<' then ['&', 'l', 't', ';']
  else if c = '>' then ['&', 'g', 't', ';']
  else if c = '"' then ['&', 'q', 'u', 'o', 't', ';']
  else if c = '\'' then ['&', '#', 'x', '2', '7', ';']
  else [c]

/-- `html.escape` on a string. -/
def htmlEscape (cs : List Char) : List Char := (cs.map htmlEscapeChar).flatten

/-- Embedding of `_fallback_svg`. Python float arithmetic is modelled with
rationals; the decimal rendering of the computed numbers differs from
Python's `repr`, which no verified property inspects. -/
def fallbackSvg (text color : List Char) (size : ℚ) : List Char :=
  let escaped0 := htmlEscape (pyStrip (text.filter (fun c => c ≠ '$')))
  let escaped := if escaped0.isEmpty then [' '] else escaped0
  let width := max ((escaped.length : ℚ) * size * (3 / 5)) size
  let height := size * (7 / 5)
  let x := width / 2
  let y := height / 2
  "<svg xmlns=\"http://www.w3.org/2000/svg\" width=\"".data
    ++ (toString width).data
    ++ "\" height=\"".data
    ++ (toString height).data
    ++ "\" viewBox=\"0 0 ".data
    ++ (toString width).data
    ++ [' ']
    ++ (toString height).data
    ++ "\"><text x=\"".data
    ++ (toString x).data
    ++ "\" y=\"".data
    ++ (toString y).data
    ++ "\" dominant-baseline=\"middle\" text-anchor=\"middle\" font-family=\"serif\" font-size=\"".data
    ++ (toString size).data
    ++ "\" fill=\"".data
    ++ color
    ++ "\">".data
    ++ escaped
    ++ "</text></svg>".data

/-- A quote character, the regex class of quote delimiters in the viewBox pattern. -/
def isQuote (c : Char) : Bool := c == '"' || c == '\''

/-- Match the regex `viewBox\s*=\s*["...]([^"...]+)["...]` anchored at this
position, returning the (non-empty) capture between the quotes. -/
def matchViewBoxAt (cs : List Char) : Option (List Char) :=
  match dropLit ['v', 'i', 'e', 'w', 'B', 'o', 'x'] cs with
  | none => none
  | some r1 =>
    match r1.dropWhile isPySpace with
    | '=' :: r2 =>
      match r2.dropWhile isPySpace with
      | q :: r3 =>
        if isQuote q then
          let cap := r3.takeWhile (fun c => !isQuote c)
          match r3.dropWhile (fun c => !isQuote c) with
          | _ :: _ => if cap.isEmpty then none else some cap
          | [] => none
        else none
      | [] => none
    | _ => none

/-- `re.search` for the viewBox pattern: try every start position in order. -/
def findViewBox : List Char → Option (List Char)
  | [] => none
  | c :: rest =>
    match matchViewBoxAt (c :: rest) with
    | some cap => some cap
    | none => findViewBox rest

/-- A Python float value as far as this code observes it: a finite value
(kept as an exact fraction — numerator over positive denominator, left
unnormalized so every comparison is kernel-computable), an infinity, or
NaN. -/
inductive PyFloat
  | finite (num : Int) (den : Nat)
  | posInf
  | negInf
  | nan
deriving DecidableEq

/-- Digit string to number, most significant first. -/
def digitsToNat (ds : List Char) : Nat :=
  ds.foldl (fun n c => n * 10 + (c.toNat - '0'.toNat)) 0

/-- Parse the exponent tail of a float literal: empty, or `[eE][+-]?digits`,
consuming the whole input. -/
def parseExpPart : List Char → Option Int
  | [] => some 0
  | e :: rest =>
    if e == 'e' || e == 'E' then
      match rest with
      | '+' :: ds =>
        if ds.isEmpty then none
        else if ds.all Char.isDigit then some (digitsToNat ds) else none
      | '-' :: ds =>
        if ds.isEmpty then none
        else if ds.all Char.isDigit then some (-(digitsToNat ds : Int)) else none
      | ds =>
        if ds.isEmpty then none
        else if ds.all Char.isDigit then some (digitsToNat ds) else none
    else none

/-- Parse `digits[.digits]` (at least one digit overall) as an exact
unsigned fraction, returning the rest of the input. -/
def parseMantissa (cs : List Char) : Option ((Nat × Nat) × List Char) :=
  let ip := cs.takeWhile Char.isDigit
  let r1 := cs.dropWhile Char.isDigit
  match r1 with
  | '.' :: r2 =>
    let fp := r2.takeWhile Char.isDigit
    let r3 := r2.dropWhile Char.isDigit
    if ip.isEmpty && fp.isEmpty then none
    else some ((digitsToNat ip * 10 ^ fp.length + digitsToNat fp, 10 ^ fp.length), r3)
  | _ => if ip.isEmpty then none else some ((digitsToNat ip, 1), r1)

/-- Lowercase a string (ASCII). -/
def lowerAll (cs : List Char) : List Char := cs.map Char.toLower

/-- The unsigned part of Python `float(string)`: a decimal literal with
optional fraction and exponent, or `inf` / `infinity` / `nan` in any case.
(Underscore digit separators and surrounding whitespace, which `float`
also accepts, cannot occur in the inputs this model receives: they come
from `split()`.) -/
def parsePyFloatCore (cs : List Char) : Option PyFloat :=
  if lowerAll cs = ['i', 'n', 'f'] || lowerAll cs = ['i', 'n', 'f', 'i', 'n', 'i', 't', 'y'] then
    some .posInf
  else if lowerAll cs = ['n', 'a', 'n'] then some .nan
  else
    match parseMantissa cs with
    | none => none
    | some ((n, d), rest) =>
      match parseExpPart rest with
      | none => none
      | some e =>
        if 0 ≤ e then some (.finite ((n * 10 ^ e.toNat : Nat) : Int) d)
        else some (.finite (n : Int) (d * 10 ^ (-e).toNat))

/-- Python `float(string)`: optional sign, then `parsePyFloatCore`. -/
def parsePyFloat (cs : List Char) : Option PyFloat :=
  match cs with
  | '+' :: r => parsePyFloatCore r
  | '-' :: r =>
    (parsePyFloatCore r).map fun v =>
      match v with
      | .finite n d => .finite (-n) d
      | .posInf => .negInf
      | .negInf => .posInf
      | .nan => .nan
  | _ => parsePyFloatCore cs

/-- The comparison `v < 0.5` on modelled float values (NaN compares
false): for a fraction `n / d` with positive `d` it is `2 n < d`. -/
def ltHalf : PyFloat → Bool
  | .finite n d => decide (2 * n < (d : Int))
  | .posInf => false
  | .negInf => true
  | .nan => false

/-- Embedding of `_svg_viewbox_empty`: no viewBox attribute, a viewBox whose
content does not split into four fields, unparseable width/height, or a
width or height below 0.5 all count as "empty". -/
def svgViewboxEmpty (svg : List Char) : Bool :=
  match findViewBox svg with
  | none => true
  | some cap =>
    match splitWs (pyStrip cap) with
    | [_, _, w, h] =>
      match parsePyFloat w, parsePyFloat h with
      | some wv, some hv => ltHalf wv || ltHalf hv
      | _, _ => true
    | _ => true

/-- Embedding of `is_latex`: search for a backslash immediately followed by
an ASCII letter (the regex `\\[a-zA-Z]+`). -/
def hasBackslashCommand : List Char → Bool
  | [] => false
  | a :: tail =>
    if a = '\\' then
      match tail with
      | [] => false
      | c :: _ => if isAsciiLetter c then true else hasBackslashCommand tail
    else hasBackslashCommand tail

/-- Embedding of `is_latex`. -/
def is_latex (text : String) : Bool :=
  if text.data.isEmpty then false
  else if text.data.contains '$' then true
  else if hasBackslashCommand text.data then true
  else if text.data.any (fun c => c = '^' || c = '_') then true
  else false

/-- The string `latex_to_svg` hands to the external renderer: the input
stripped, Dirac-expanded, and wrapped in `$...$` when it holds no `$`. -/
def mathInput (text : List Char) : List Char :=
  let r := preprocessDirac (pyStrip text)
  if r.contains '$' then r else '$' :: (r ++ ['$'])

/-- Embedding of `latex_to_svg`. Matplotlib is an external collaborator,
passed in as `render`; `.error` models any exception raised inside the
`try` block, which the source catches with `except Exception`. The
embedding returns plain bytes — never an exception — for every renderer
outcome, mirroring the totality of the source function. -/
def latex_to_svg (render : List Char → Except Unit (List Char))
    (text color : List Char) (size : ℚ) : List Char :=
  match render (mathInput text) with
  | .error _ => fallbackSvg text color size
  | .ok svg => if svgViewboxEmpty svg then fallbackSvg text color size else svg

/-- Boolean "the first list starts the second" test. -/
def listStartsWith : List Char → List Char → Bool
  | [], _ => true
  | _ :: _, [] => false
  | p :: ps, c :: cs => p = c && listStartsWith ps cs

/-! ## Session-state persistence

The subsystem itself (`zxlive/mainwindow.py`) is not among the repository
files at hand — only its tests and the specification are — so the
definitions below are modelled from the spec (sections 3, 4, 6 of spec.md)
and carry `Modelled from the spec:` notes. -/

/-- Modelled from the spec: the external settings store, "a process-wide
key to string mapping with get, set, remove". -/
def Store := String → Option String

/-- Write a key (whole-value replace). -/
def Store.set (st : Store) (k v : String) : Store :=
  fun q => if q = k then some v else st q

/-- Delete a key. -/
def Store.remove (st : Store) (k : String) : Store :=
  fun q => if q = k then none else st q

/-- The store with nothing saved. -/
def emptyStore : Store := fun _ => none

/-- The settings key holding the serialized session document. -/
def sessionKey : String := "session_state"

/-- The settings key holding the restore policy. -/
def behaviorKey : String := "startup-behavior"

/-- Modelled from the spec: the "startup-behavior" setting, "string enum
blank | restore, default restore". -/
def startupBehavior (st : Store) : String := (st behaviorKey).getD "restore"

/-- One serialized tab inside a session document (spec section 3,
"TabRecord").  `data` is optional so that a stored record lacking its
`data` field is representable, as the decode contract requires. -/
structure TabRecord where
  type : String
  name : String
  data : Option String
  file_path : Option String
  file_type : Option String
deriving DecidableEq

/-- The envelope format (spec section 3, "SessionDocument"). -/
structure SessionDocument where
  tabs : List TabRecord
  active_tab : Nat
deriving DecidableEq

/-! ### Wire format

Modelled from the spec: the document is "serialize[d] ... to one string"
and restore must "attempt to parse the stored string", failing cleanly on
garbage.  The repository's actual JSON encoder is external (Python's
`json`), so an explicit injective length-prefixed encoding with a matching
parser stands in for it; every verified property either goes through the
round trip or treats an arbitrary unparseable string. -/

/-- Unary-coded natural: `n` ones then a zero. -/
def encNat (n : Nat) : List Char := List.replicate n '1' ++ ['0']

/-- Parse a unary-coded natural, returning the rest of the input. -/
def parseNat : List Char → Option (Nat × List Char)
  | '0' :: rest => some (0, rest)
  | '1' :: rest =>
    match parseNat rest with
    | some (n, r) => some (n + 1, r)
    | none => none
  | _ => none

/-- Length-prefixed string of characters. -/
def encLStr (s : List Char) : List Char := encNat s.length ++ s

/-- Parse a length-prefixed string. -/
def parseLStr (cs : List Char) : Option (List Char × List Char) :=
  match parseNat cs with
  | some (n, r) => if n ≤ r.length then some (r.take n, r.drop n) else none
  | none => none

/-- Optional string: `N` for absent, `S` then the string. -/
def encOptStr : Option String → List Char
  | none => ['N']
  | some s => 'S' :: encLStr s.data

/-- Parse an optional string. -/
def parseOptStr : List Char → Option (Option String × List Char)
  | 'N' :: r => some (none, r)
  | 'S' :: r =>
    match parseLStr r with
    | some (cs, r2) => some (some (String.mk cs), r2)
    | none => none
  | _ => none

/-- One tab record on the wire: its five fields in order. -/
def encRecord (r : TabRecord) : List Char :=
  encLStr r.type.data ++ encLStr r.name.data ++ encOptStr r.data
    ++ encOptStr r.file_path ++ encOptStr r.file_type

/-- Parse one tab record. -/
def parseRecord (cs : List Char) : Option (TabRecord × List Char) :=
  match parseLStr cs with
  | none => none
  | some (ty, r1) =>
    match parseLStr r1 with
    | none => none
    | some (nm, r2) =>
      match parseOptStr r2 with
      | none => none
      | some (dt, r3) =>
        match parseOptStr r3 with
        | none => none
        | some (fp, r4) =>
          match parseOptStr r4 with
          | none => none
          | some (ft, r5) => some (⟨String.mk ty, String.mk nm, dt, fp, ft⟩, r5)

/-- The tab records of a document, concatenated. -/
def encRecListBody : List TabRecord → List Char
  | [] => []
  | r :: rest => encRecord r ++ encRecListBody rest

/-- Parse exactly `n` tab records. -/
def parseRecListN : Nat → List Char → Option (List TabRecord × List Char)
  | 0, cs => some ([], cs)
  | n + 1, cs =>
    match parseRecord cs with
    | none => none
    | some (r, rest) =>
      match parseRecListN n rest with
      | none => none
      | some (l, r2) => some (r :: l, r2)

/-- Serialize a whole session document to the one persisted string. -/
def encodeDoc (d : SessionDocument) : String :=
  String.mk (encNat d.tabs.length ++ (encRecListBody d.tabs ++ encNat d.active_tab))

/-- Parse the persisted string back into a session document; `none` models
the "StoreParseError" case of the error taxonomy. -/
def parseDoc (s : String) : Option SessionDocument :=
  match parseNat s.data with
  | none => none
  | some (n, r1) =>
    match parseRecListN n r1 with
    | none => none
    | some (tabs, r2) =>
      match parseNat r2 with
      | some (a, []) => some ⟨tabs, a⟩
      | _ => none

/-- The parsed session document currently persisted under the session key. -/
def storedDoc (st : Store) : Option SessionDocument := (st sessionKey).bind parseDoc

/-! ### Panels and the panel codec -/

/-- The diagram engine's own graph encoding is a JSON object; its
deserializer rejects strings that are not (e.g. the literal `INVALID` used
by the tests).  Modelled from the spec: the engine is external ("consumed
as an opaque payload producer/consumer"), exposing serialize and
deserialize with deserialization failing on non-object strings. -/
def graphWF (s : String) : Bool :=
  match s.data with
  | [] => false
  | c :: _ => c == '\x7b'

/-- A graph in the diagram engine's encoding. -/
abbrev GraphData := { s : String // graphWF s = true }

/-- Modelled from the spec: the engine's `serialize(graph) -> string`. -/
def serializeGraph (g : GraphData) : String := g.val

/-- Modelled from the spec: the engine's `deserialize(string) -> graph | Failure`. -/
def deserializeGraph (s : String) : Option GraphData :=
  if h : graphWF s = true then some ⟨s, h⟩ else none

/-- The panel payload variants of spec section 3: a graph diagram, a proof
(initial graph plus ordered derivation steps, each opaque), or a rewrite
rule (two graphs, a name and a description). -/
inductive PanelData
  | graph (g : GraphData)
  | proof (initial_graph : GraphData) (proof_steps : List String)
  | rule (lhs_graph rhs_graph : GraphData) (rule_name description : String)
deriving DecidableEq

/-- A live editor panel: its payload, display title and optional file
association (spec glossary, "Panel"). -/
structure Panel where
  pdata : PanelData
  name : String
  file_path : Option String
  file_type : Option String
deriving DecidableEq

/-- The `type` discriminant a panel serializes under. -/
def panelKindString : PanelData → String
  | .graph _ => "graph"
  | .proof _ _ => "proof"
  | .rule _ _ _ _ => "rule"

/-- The strings of a proof payload's `proof_steps`, concatenated. -/
def encStrListBody : List String → List Char
  | [] => []
  | s :: rest => encLStr s.data ++ encStrListBody rest

/-- Parse exactly `n` strings. -/
def parseStrListN : Nat → List Char → Option (List String × List Char)
  | 0, cs => some ([], cs)
  | n + 1, cs =>
    match parseLStr cs with
    | none => none
    | some (s, rest) =>
      match parseStrListN n rest with
      | none => none
      | some (l, r2) => some (String.mk s :: l, r2)

/-- Length-prefixed list of strings. -/
def encStrList (l : List String) : List Char := encNat l.length ++ encStrListBody l

/-- Parse a length-prefixed list of strings. -/
def parseStrList (cs : List Char) : Option (List String × List Char) :=
  match parseNat cs with
  | none => none
  | some (n, r) => parseStrListN n r

/-- Panel Codec, encode side of the `data` payload: graph panels store the
engine encoding itself; proof panels store `initial_graph` and
`proof_steps`; rule panels store `lhs_graph`, `rhs_graph`, name and
description (spec sections 4.1 and 6). -/
def encodePanelData : PanelData → String
  | .graph g => serializeGraph g
  | .proof ig steps => String.mk ('P' :: (encLStr (serializeGraph ig).data ++ encStrList steps))
  | .rule lg rg nm ds =>
    String.mk ('R' :: (encLStr (serializeGraph lg).data ++ (encLStr (serializeGraph rg).data
      ++ (encLStr nm.data ++ encLStr ds.data))))

/-- Panel Codec, decode side of the `data` payload: parses according to the
declared type, failing on content that is not valid for that kind or that
lacks a required part. -/
def decodePayload (ty d : String) : Option PanelData :=
  if ty = "graph" then (deserializeGraph d).map PanelData.graph
  else if ty = "proof" then
    match d.data with
    | 'P' :: r1 =>
      match parseLStr r1 with
      | none => none
      | some (igcs, r2) =>
        match deserializeGraph (String.mk igcs) with
        | none => none
        | some ig =>
          match parseStrList r2 with
          | some (steps, []) => some (.proof ig steps)
          | _ => none
    | _ => none
  else if ty = "rule" then
    match d.data with
    | 'R' :: r1 =>
      match parseLStr r1 with
      | none => none
      | some (lcs, r2) =>
        match deserializeGraph (String.mk lcs) with
        | none => none
        | some lg =>
          match parseLStr r2 with
          | none => none
          | some (rcs, r3) =>
            match deserializeGraph (String.mk rcs) with
            | none => none
            | some rg =>
              match parseLStr r3 with
              | none => none
              | some (nm, r4) =>
                match parseLStr r4 with
                | some (ds, []) => some (.rule lg rg (String.mk nm) (String.mk ds))
                | _ => none
    | _ => none
  else none

/-- One of the three known `type` discriminants? -/
def knownType (ty : String) : Bool := ty == "graph" || ty == "proof" || ty == "rule"

/-- Panel Codec `encode` (spec section 4.1): never fails for a live panel;
copies name and file association verbatim. -/
def encodePanel (p : Panel) : TabRecord :=
  ⟨panelKindString p.pdata, p.name, some (encodePanelData p.pdata), p.file_path, p.file_type⟩

/-- Panel Codec `decode` (spec section 4.1): a typed failure — never a
crash — on an unknown type, a missing `data` field, or a payload that does
not parse for its declared type; on success the name and file association
are applied to the reconstructed panel. -/
def decodeRecord (r : TabRecord) : Except String Panel :=
  if knownType r.type = false then .error "unknown tab type"
  else
    match r.data with
    | none => .error "missing data field"
    | some d =>
      match decodePayload r.type d with
      | none => .error "payload decode error"
      | some pd => .ok ⟨pd, r.name, r.file_path, r.file_type⟩

/-! ### Session State Manager -/

/-- The open tabs, left to right, and the active tab index. -/
structure UIState where
  tabs : List Panel
  current : Nat
deriving DecidableEq

/-- Modelled from the spec (section 4.2): save deletes the key when no
panel is open, and otherwise replaces it with the encoded document. -/
def save (ui : UIState) (st : Store) : Store :=
  if ui.tabs.isEmpty then Store.remove st sessionKey
  else Store.set st sessionKey (encodeDoc ⟨ui.tabs.map encodePanel, ui.current⟩)

/-- Outcome of a restore call: the reported boolean, the reconstructed UI
tab set (restore starts from a cleared tab set), and the store, which
restore only reads. -/
structure RestoreResult where
  ok : Bool
  ui : UIState
  store : Store

/-- Modelled from the spec (section 4.3): the restore state machine —
policy gate, presence check, parse, emptiness check, per-record
reconstruction skipping failures, and active-tab remapping against the
records actually restored (falling back to the first restored tab). -/
def restore (st : Store) : RestoreResult :=
  if startupBehavior st = "blank" then ⟨false, ⟨[], 0⟩, st⟩
  else
    match st sessionKey with
    | none => ⟨false, ⟨[], 0⟩, st⟩
    | some s =>
      match parseDoc s with
      | none => ⟨false, ⟨[], 0⟩, st⟩
      | some doc =>
        if doc.tabs.isEmpty then ⟨false, ⟨[], 0⟩, st⟩
        else
          let restored := doc.tabs.enum.filterMap
            (fun ir => ((decodeRecord ir.2).toOption).map (fun p => (ir.1, p)))
          if restored.isEmpty then ⟨false, ⟨[], 0⟩, st⟩
          else
            ⟨true,
             ⟨restored.map (fun ip => ip.2),
              match restored.findIdx? (fun ip => ip.1 == doc.active_tab) with
              | some i => i
              | none => 0⟩,
             st⟩

/-- Modelled from the spec (section 4.5): "On application-close, save() is
invoked synchronously and unconditionally before the close completes",
whatever the policy setting says. -/
def closeEvent (ui : UIState) (st : Store) : Store := save ui st

/-! ### Autosave timer and application lifecycle -/

/-- The recurring autosave timer's observable state. -/
structure Timer where
  interval : Nat
  active : Bool
deriving DecidableEq

/-- The application window's state: the open tabs, the settings store and
the autosave timer. -/
structure AppState where
  ui : UIState
  store : Store
  timer : Timer

/-- Modelled from the spec (section 4.4): at startup the window is created
with no tabs and the autosave timer started once with its fixed 60000 ms
period. -/
def initApp (st : Store) : AppState := ⟨⟨[], 0⟩, st, ⟨60000, true⟩⟩

/-- The events the subsystem reacts to over the window's lifetime: an
autosave tick, an explicit save, a restore, any UI edit (opening, closing,
reordering or selecting tabs), and the close event. -/
inductive Event
  | tick
  | explicitSave
  | doRestore
  | editUI (f : UIState → UIState)
  | closeApp

/-- One step of the application: each trigger calls the one save or restore
entry point; nothing ever touches the timer after startup. -/
def step (s : AppState) : Event → AppState
  | .tick => { s with store := save s.ui s.store }
  | .explicitSave => { s with store := save s.ui s.store }
  | .doRestore =>
    let r := restore s.store
    if r.ok then { s with ui := r.ui } else s
  | .editUI f => { s with ui := f s.ui }
  | .closeApp => { s with store := closeEvent s.ui s.store }

/-- The states the application can be in from startup onward. -/
inductive Reachable : AppState → Prop
  | init (st : Store) : Reachable (initApp st)
  | step (s : AppState) (e : Event) : Reachable s → Reachable (step s e)

/-! ### Concrete sample data for witnesses -/

/-- A smallest well-formed graph encoding. -/
def sampleGraph : GraphData := ⟨"\x7b\x7d", by decide⟩

/-- A graph panel with the given title and no file association. -/
def samplePanel (nm : String) : Panel := ⟨.graph sampleGraph, nm, none, none⟩

/-- A store whose restore policy is the default-valued "restore". -/
def restoreStore : Store := Store.set emptyStore behaviorKey "restore"

/-- A store whose restore policy is "blank". -/
def blankStore : Store := Store.set emptyStore behaviorKey "blank"

/-- A record of a type no codec knows. -/
def badRecord : TabRecord := ⟨"unknown_panel", "Bad Tab", some "\x7b\x7d", none, none⟩

/-- A well-formed graph record. -/
def goodRecord : TabRecord := encodePanel (samplePanel "Good Tab")

/-- A stored document mixing one undecodable and one well-formed record. -/
def docMixed : SessionDocument := ⟨[badRecord, goodRecord], 0⟩

/-- A store persisting `docMixed` with the restore policy on. -/
def storeMixed : Store := Store.set restoreStore sessionKey (encodeDoc docMixed)

/-- A store whose persisted session is not parseable. -/
def garbageStore : Store := Store.set restoreStore sessionKey "NOT VALID JSON \x7b\x7b\x7b"

/-- Three graph panels named as in the spec's concrete scenario. -/
def panelsThree : List Panel := [samplePanel "Tab A", samplePanel "Tab B", samplePanel "Tab C"]

/-- The store after saving the three-tab session with active index 2. -/
def storeThree : Store := save ⟨panelsThree, 2⟩ restoreStore

/-- A one-tab UI for exercising the close-time save. -/
def closeUI : UIState := ⟨[samplePanel "Blank Mode"], 0⟩

/-- The predicate of the no-usable-session early exits of restore: the key
is absent, or the stored string does not parse, or it parses to a document
with no tabs. -/
def sessionUnusable (st : Store) : Bool :=
  match st sessionKey with
  | none => true
  | some s =>
    match parseDoc s with
    | none => true
    | some doc => doc.tabs.isEmpty

/-! ## Round-trip lemmas for the wire format -/

theorem take_len_append (s t : List Char) : (s ++ t).take s.length = s := by
  induction s with
  | nil => simp
  | cons a l ih => simp [ih]

theorem drop_len_append (s t : List Char) : (s ++ t).drop s.length = t := by
  induction s with
  | nil => simp
  | cons a l ih => simp [ih]

theorem data_mk (l : List Char) : (String.mk l).data = l := rfl

theorem mk_data (s : String) : String.mk s.data = s := rfl

theorem parseNat_enc (n : Nat) (t : List Char) : parseNat (encNat n ++ t) = some (n, t) := by
  induction n with
  | zero => rfl
  | succ n ih =>
    have h : encNat (n + 1) ++ t = '1' :: (encNat n ++ t) := by
      simp [encNat, List.replicate_succ]
    rw [h]
    simp [parseNat, ih]

theorem parseNat_enc_nil (n : Nat) : parseNat (encNat n) = some (n, []) := by
  have h := parseNat_enc n []
  simpa using h

theorem parseLStr_enc (s t : List Char) : parseLStr (encLStr s ++ t) = some (s, t) := by
  have h : encLStr s ++ t = encNat s.length ++ (s ++ t) := by
    simp [encLStr]
  rw [h]
  simp [parseLStr, parseNat_enc, take_len_append, drop_len_append, Nat.le_add_right]

theorem parseOptStr_enc (o : Option String) (t : List Char) :
    parseOptStr (encOptStr o ++ t) = some (o, t) := by
  cases o with
  | none => rfl
  | some s =>
    have h : encOptStr (some s) ++ t = 'S' :: (encLStr s.data ++ t) := by
      simp [encOptStr]
    rw [h]
    simp [parseOptStr, parseLStr_enc, mk_data]

theorem parseRecord_enc (r : TabRecord) (t : List Char) :
    parseRecord (encRecord r ++ t) = some (r, t) := by
  obtain ⟨ty, nm, dt, fp, ft⟩ := r
  simp [encRecord, parseRecord, List.append_assoc, parseLStr_enc, parseOptStr_enc, mk_data]

theorem parseRecListN_enc (l : List TabRecord) : ∀ t : List Char,
    parseRecListN l.length (encRecListBody l ++ t) = some (l, t) := by
  induction l with
  | nil => intro t; rfl
  | cons r rest ih =>
    intro t
    simp [encRecListBody, parseRecListN, List.append_assoc, parseRecord_enc, ih]

theorem parseDoc_enc (d : SessionDocument) : parseDoc (encodeDoc d) = some d := by
  obtain ⟨tabs, a⟩ := d
  show parseDoc (String.mk (encNat tabs.length ++ (encRecListBody tabs ++ encNat a))) = _
  rw [parseDoc, data_mk, parseNat_enc]
  have h := parseRecListN_enc tabs (encNat a)
  simp [h, parseNat_enc_nil]

theorem parseStrListN_enc (l : List String) : ∀ t : List Char,
    parseStrListN l.length (encStrListBody l ++ t) = some (l, t) := by
  induction l with
  | nil => intro t; rfl
  | cons s rest ih =>
    intro t
    simp [encStrListBody, parseStrListN, List.append_assoc, parseLStr_enc, ih, mk_data]

theorem parseStrList_enc (l : List String) (t : List Char) :
    parseStrList (encStrList l ++ t) = some (l, t) := by
  have h : encStrList l ++ t = encNat l.length ++ (encStrListBody l ++ t) := by
    simp [encStrList]
  rw [h]
  simp [parseStrList, parseNat_enc, parseStrListN_enc]

theorem parseStrList_enc_nil (l : List String) : parseStrList (encStrList l) = some (l, []) := by
  have h := parseStrList_enc l []
  simpa using h

theorem parseLStr_enc_nil (s : List Char) : parseLStr (encLStr s) = some (s, []) := by
  have h := parseLStr_enc s []
  simpa using h

theorem deserialize_serialize (g : GraphData) :
    deserializeGraph (serializeGraph g) = some g := by
  obtain ⟨s, h⟩ := g
  simp [serializeGraph, deserializeGraph, h]

theorem deserialize_val (g : GraphData) : deserializeGraph g.val = some g := by
  obtain ⟨s, h⟩ := g
  simp [deserializeGraph, h]

/-- The panel codec is the identity on every encoded live panel. -/
theorem decode_encode (p : Panel) : decodeRecord (encodePanel p) = .ok p := by
  obtain ⟨pd, nm, fp, ft⟩ := p
  cases pd with
  | graph g =>
    simp [encodePanel, panelKindString, decodeRecord, knownType, decodePayload,
      encodePanelData, deserialize_serialize]
  | proof ig steps =>
    have hpay : decodePayload "proof" (encodePanelData (.proof ig steps))
        = some (.proof ig steps) := by
      rw [decodePayload, if_neg (by decide : ¬ ("proof" = "graph")),
        if_pos (rfl : "proof" = "proof")]
      show (match ('P' :: (encLStr (serializeGraph ig).data ++ encStrList steps) : List Char) with
        | 'P' :: r1 => _
        | _ => none) = _
      simp [parseLStr_enc, mk_data, serializeGraph, deserialize_val, parseStrList_enc_nil]
    simp [encodePanel, panelKindString, decodeRecord, knownType, hpay]
  | rule lg rg rn rd =>
    have hpay : decodePayload "rule" (encodePanelData (.rule lg rg rn rd))
        = some (.rule lg rg rn rd) := by
      rw [decodePayload, if_neg (by decide : ¬ ("rule" = "graph")),
        if_neg (by decide : ¬ ("rule" = "proof")), if_pos (rfl : "rule" = "rule")]
      show (match ('R' :: (encLStr (serializeGraph lg).data ++ (encLStr (serializeGraph rg).data
          ++ (encLStr rn.data ++ encLStr rd.data))) : List Char) with
        | 'R' :: r1 => _
        | _ => none) = _
      simp [parseLStr_enc, mk_data, serializeGraph, deserialize_val, parseLStr_enc_nil]
    simp [encodePanel, panelKindString, decodeRecord, knownType, hpay]

/-! ## The restore loop -/

/-- Decoding an all-encoded record list restores every panel with its
original index. -/
theorem enumFrom_filterMap_decode (l : List Panel) : ∀ n : Nat,
    (List.enumFrom n (l.map encodePanel)).filterMap
      (fun ir => ((decodeRecord ir.2).toOption).map (fun p => (ir.1, p)))
    = List.enumFrom n l := by
  induction l with
  | nil => intro n; rfl
  | cons p ps ih =>
    intro n
    have hd : (decodeRecord (encodePanel p)).toOption = some p := by
      rw [decode_encode]; rfl
    simp [List.enumFrom, List.filterMap_cons, hd, ih]

theorem enumFrom_map_snd {α : Type} (l : List α) : ∀ n : Nat,
    (List.enumFrom n l).map (fun ip => ip.2) = l := by
  induction l with
  | nil => intro n; rfl
  | cons a as ih =>
    intro n
    simp [List.enumFrom, ih]

/-- The restored panels, in structure, are the per-record decode successes
in original order. -/
theorem enumFrom_filterMap_snd (l : List TabRecord) : ∀ n : Nat,
    ((List.enumFrom n l).filterMap
        (fun ir => ((decodeRecord ir.2).toOption).map (fun p => (ir.1, p)))).map
      (fun ip => ip.2)
    = l.filterMap (fun r => (decodeRecord r).toOption) := by
  induction l with
  | nil => intro n; rfl
  | cons r rs ih =>
    intro n
    cases h : (decodeRecord r).toOption with
    | none => simp [List.enumFrom, List.filterMap_cons, h, ih]
    | some p => simp [List.enumFrom, List.filterMap_cons, h, ih]

theorem enumFrom_filterMap_isEmpty (l : List TabRecord) : ∀ n : Nat,
    ((List.enumFrom n l).filterMap
        (fun ir => ((decodeRecord ir.2).toOption).map (fun p => (ir.1, p)))).isEmpty
    = (l.filterMap (fun r => (decodeRecord r).toOption)).isEmpty := by
  induction l with
  | nil => intro n; rfl
  | cons r rs ih =>
    intro n
    cases h : (decodeRecord r).toOption with
    | none => simp [List.enumFrom, List.filterMap_cons, h, ih]
    | some p => simp [List.enumFrom, List.filterMap_cons, h]

/-- A save does not touch the policy key. -/
theorem save_behavior_key (ui : UIState) (st : Store) :
    (save ui st) behaviorKey = st behaviorKey := by
  unfold save Store.set Store.remove
  have hne : ¬ (behaviorKey = sessionKey) := by decide
  by_cases h : ui.tabs.isEmpty <;> simp [h, hne]

/-! ## C1 — save/restore round trip -/

/-- C1: for every non-empty ordered list of panels (of any of the three
kinds, with arbitrary names and file associations) and any active index,
saving and then restoring with startup-behavior = restore reconstructs
exactly that list of panels — same type, name, file_path and file_type, in
the original left-to-right order (the restored tab list is equal to the
original panel list outright). -/
theorem session_round_trip (st : Store) (panels : List Panel) (a : Nat)
    (hne : panels ≠ []) (hpol : startupBehavior st = "restore") :
    (restore (save ⟨panels, a⟩ st)).ok = true ∧
      (restore (save ⟨panels, a⟩ st)).ui.tabs = panels := by
  obtain ⟨p, ps, rfl⟩ : ∃ p ps, panels = p :: ps := by
    cases panels with
    | nil => exact absurd rfl hne
    | cons p ps => exact ⟨p, ps, rfl⟩
  have hpol2 : startupBehavior (save ⟨p :: ps, a⟩ st) = "restore" := by
    unfold startupBehavior
    rw [save_behavior_key]
    exact hpol
  have hget : (save ⟨p :: ps, a⟩ st) sessionKey
      = some (encodeDoc ⟨(p :: ps).map encodePanel, a⟩) := by
    unfold save Store.set
    simp
  unfold restore
  rw [hpol2, if_neg (by decide : ¬ ("restore" = "blank")), hget]
  simp only [parseDoc_enc]
  have hd : (decodeRecord (encodePanel p)).toOption = some p := by
    rw [decode_encode]; rfl
  have hde := enumFrom_filterMap_decode ps
  simp [List.enum, List.enumFrom, List.filterMap_cons, hd, hde, enumFrom_map_snd]

/-- Witness for C1 at a concrete one-panel session. -/
theorem session_round_trip_witness :
    (restore (save ⟨[samplePanel "Restored Graph"], 0⟩ restoreStore)).ok = true ∧
      (restore (save ⟨[samplePanel "Restored Graph"], 0⟩ restoreStore)).ui.tabs
        = [samplePanel "Restored Graph"] :=
  session_round_trip restoreStore [samplePanel "Restored Graph"] 0
    (by decide) (by decide)

/-! ## C2 — per-record failure isolation -/

/-- C2: whenever the gate, presence, parse and emptiness steps pass, the
restore loop never raises and never aborts: the installed tabs are exactly
the per-record decode successes in original order (records whose decode
fails — unknown type, missing data, corrupt data — are skipped), and the
reported boolean is true exactly when at least one record survived. -/
theorem restore_skips_undecodable (st : Store) (s : String) (doc : SessionDocument)
    (hpol : startupBehavior st ≠ "blank")
    (hget : st sessionKey = some s) (hparse : parseDoc s = some doc)
    (hne : doc.tabs ≠ []) :
    (restore st).ui.tabs = doc.tabs.filterMap (fun r => (decodeRecord r).toOption)
    ∧ (restore st).ok = !(doc.tabs.filterMap (fun r => (decodeRecord r).toOption)).isEmpty := by
  have hnem : doc.tabs.isEmpty = false := by
    cases h : doc.tabs with
    | nil => exact absurd h hne
    | cons r rs => rfl
  unfold restore
  rw [if_neg hpol, hget]
  simp only [hparse, hnem]
  have hsnd := enumFrom_filterMap_snd doc.tabs 0
  have hemp := enumFrom_filterMap_isEmpty doc.tabs 0
  cases hres : ((List.enumFrom 0 doc.tabs).filterMap
      (fun ir => ((decodeRecord ir.2).toOption).map (fun p => (ir.1, p)))).isEmpty with
  | true =>
    have h1 : (doc.tabs.filterMap (fun r => (decodeRecord r).toOption)).isEmpty = true := by
      rw [← hemp]; exact hres
    have h2 : doc.tabs.filterMap (fun r => (decodeRecord r).toOption) = [] := by
      cases h : doc.tabs.filterMap (fun r => (decodeRecord r).toOption) with
      | nil => rfl
      | cons x xs => rw [h] at h1; simp at h1
    simp [List.enum, hres, h1, h2]
  | false =>
    have h1 : (doc.tabs.filterMap (fun r => (decodeRecord r).toOption)).isEmpty = false := by
      rw [← hemp]; exact hres
    simp [List.enum, hres, h1, hsnd]

/-- Witness for C2: a stored document holding one record of unknown type
and one well-formed graph record restores exactly the well-formed one,
name preserved, and reports true. -/
theorem restore_skips_undecodable_witness :
    (restore storeMixed).ui.tabs = [samplePanel "Good Tab"]
    ∧ (restore storeMixed).ok = true := by
  have h := restore_skips_undecodable storeMixed (encodeDoc docMixed) docMixed
    (by decide) (by decide) (parseDoc_enc docMixed) (by decide)
  refine ⟨?_, ?_⟩
  · rw [h.1]; decide
  · rw [h.2]; decide

/-! ## C3 — policy gating -/

/-- C3: with startup-behavior set to blank, restore reports false, installs
zero tabs, and leaves the store — including the persisted session document —
exactly as it was. -/
theorem restore_blank_policy (st : Store) (h : st behaviorKey = some "blank") :
    restore st = ⟨false, ⟨[], 0⟩, st⟩ := by
  have hb : startupBehavior st = "blank" := by
    unfold startupBehavior
    rw [h]
    rfl
  simp [restore, hb]

/-- Witness for C3 at a concrete blank-policy store. -/
theorem restore_blank_policy_witness :
    restore blankStore = ⟨false, ⟨[], 0⟩, blankStore⟩ :=
  restore_blank_policy blankStore (by decide)

/-! ## C4 — no usable session -/

/-- C4: whenever the session key is absent, or the stored string does not
parse as a session document, or the parsed document has an empty tab list,
restore reports false and installs zero tabs (and never raises: it is a
total function returning the untouched store). -/
theorem restore_unusable_session (st : Store) (h : sessionUnusable st = true) :
    restore st = ⟨false, ⟨[], 0⟩, st⟩ := by
  by_cases hb : startupBehavior st = "blank"
  · simp [restore, hb]
  · unfold sessionUnusable at h
    unfold restore
    rw [if_neg hb]
    cases hk : st sessionKey with
    | none => rfl
    | some s =>
      rw [hk] at h
      simp only at h
      cases hp : parseDoc s with
      | none => simp [hp]
      | some doc =>
        rw [hp] at h
        simp only at h
        simp [hp, h]

/-- Witness for C4 at a store holding an unparseable session string. -/
theorem restore_unusable_session_witness :
    restore garbageStore = ⟨false, ⟨[], 0⟩, garbageStore⟩ :=
  restore_unusable_session garbageStore (by decide)

/-! ## C5 — empty save deletes the key -/

/-- C5: whatever the store held before, saving with an empty panel list
leaves the session key absent — the key is deleted, not overwritten. -/
theorem save_empty_clears_key (st : Store) (a : Nat) :
    save ⟨[], a⟩ st sessionKey = none := by
  simp [save, Store.remove]

/-! ## C6 — the concrete three-tab scenario -/

/-- C6: saving three tabs named Tab A, Tab B, Tab C with active index 2
stores a document with exactly 3 records and active_tab 2; restoring into a
cleared UI reconstructs the three titles in order and activates index 2,
which is the tab named Tab C. -/
theorem session_concrete_three_tabs :
    (storedDoc storeThree).map (fun d => (d.tabs.length, d.active_tab)) = some (3, 2)
    ∧ (restore storeThree).ok = true
    ∧ (restore storeThree).ui.tabs.map Panel.name = ["Tab A", "Tab B", "Tab C"]
    ∧ (restore storeThree).ui.current = 2
    ∧ ((restore storeThree).ui.tabs[(restore storeThree).ui.current]?).map Panel.name
        = some "Tab C" := by
  refine ⟨by decide, by decide, by decide, by decide, by decide⟩

/-! ## C7 — close-time save -/

/-- C7: the close hook runs save unconditionally — for every store,
whatever the startup-behavior setting holds (including blank) — so after a
close with a non-empty panel list the persisted document parses back with
one record per open panel, in order, with the active index. -/
theorem close_event_saves (ui : UIState) (st : Store) (h : ui.tabs ≠ []) :
    storedDoc (closeEvent ui st) = some ⟨ui.tabs.map encodePanel, ui.current⟩
    ∧ (ui.tabs.map encodePanel).length = ui.tabs.length := by
  refine ⟨?_, by simp⟩
  have hnem : ui.tabs.isEmpty = false := by
    cases h2 : ui.tabs with
    | nil => exact absurd h2 h
    | cons p ps => rfl
  unfold storedDoc closeEvent save Store.set
  simp [hnem, parseDoc_enc]

/-- Witness for C7: a close with one open tab on a store whose policy is
blank still persists the one-record document. -/
theorem close_event_saves_witness :
    storedDoc (closeEvent closeUI blankStore) = some ⟨closeUI.tabs.map encodePanel, closeUI.current⟩
    ∧ (closeUI.tabs.map encodePanel).length = closeUI.tabs.length :=
  close_event_saves closeUI blankStore (by decide)

/-! ## C8 — autosave timer invariant -/

/-- No event ever touches the autosave timer. -/
theorem step_timer (s : AppState) (e : Event) : (step s e).timer = s.timer := by
  cases e with
  | tick => rfl
  | explicitSave => rfl
  | doRestore =>
    unfold step
    by_cases hc : (restore s.store).ok <;> simp [hc]
  | editUI f => rfl
  | closeApp => rfl

/-- C8: in every application state reachable from startup, the autosave
timer exists with its fixed 60000 ms period and is active: no event of the
window's lifetime ever changes or stops it. -/
theorem autosave_timer_invariant (s : AppState) (h : Reachable s) :
    s.timer.interval = 60000 ∧ s.timer.active = true := by
  induction h with
  | init st => exact ⟨rfl, rfl⟩
  | step s e _ ih =>
    rw [step_timer]
    exact ih

/-- Witness for C8 at the freshly started application. -/
theorem autosave_timer_invariant_witness :
    (initApp emptyStore).timer.interval = 60000 ∧ (initApp emptyStore).timer.active = true :=
  autosave_timer_invariant (initApp emptyStore) (Reachable.init emptyStore)

/-! ## Lemmas about latex_render -/

theorem listStartsWith_append (p l t : List Char) (h : listStartsWith p l = true) :
    listStartsWith p (l ++ t) = true := by
  induction p generalizing l with
  | nil => rfl
  | cons a ps ih =>
    cases l with
    | nil => simp [listStartsWith] at h
    | cons c cs =>
      simp [listStartsWith] at h ⊢
      exact ⟨h.1, ih cs h.2⟩

/-- The fallback output is an SVG document: it opens with the `<svg` tag. -/
theorem fallback_starts_svg (text color : List Char) (size : ℚ) :
    listStartsWith "<svg".data (fallbackSvg text color size) = true := by
  simp only [fallbackSvg, List.append_assoc]
  apply listStartsWith_append
  decide

/-- Unfolding the backslash search at a backslash head. -/
theorem hbc_cons_backslash (tail : List Char) :
    hasBackslashCommand ('\\' :: tail) =
      (match tail with
       | [] => false
       | c :: _ => if isAsciiLetter c then true else hasBackslashCommand tail) := by
  simp [hasBackslashCommand]

/-- Unfolding the backslash search at a non-backslash head. -/
theorem hbc_cons_other (a : Char) (tail : List Char) (ha : ¬ a = '\\') :
    hasBackslashCommand (a :: tail) = hasBackslashCommand tail := by
  simp [hasBackslashCommand, ha]

/-- Completeness of the backslash-command search: every backslash followed
by an ASCII letter is found. -/
theorem hbc_complete (pre : List Char) (c : Char) (suf : List Char)
    (hc : isAsciiLetter c = true) :
    hasBackslashCommand (pre ++ '\\' :: c :: suf) = true := by
  induction pre with
  | nil =>
    rw [List.nil_append, hbc_cons_backslash]
    simp [hc]
  | cons a tl ih =>
    rw [List.cons_append]
    by_cases ha : a = '\\'
    · subst ha
      rw [hbc_cons_backslash]
      have ih2 := ih
      cases h2 : tl ++ '\\' :: c :: suf with
      | nil => simp at h2
      | cons c0 rest =>
        rw [h2] at ih2
        by_cases hc0 : isAsciiLetter c0 = true
        · simp [hc0]
        · simp only [hc0, if_false]
          exact ih2
    · rw [hbc_cons_other a _ ha]
      exact ih

/-- Soundness of the backslash-command search: a hit exhibits a backslash
immediately followed by an ASCII letter. -/
theorem hbc_sound : ∀ cs : List Char, hasBackslashCommand cs = true →
    ∃ pre c suf, cs = pre ++ '\\' :: c :: suf ∧ isAsciiLetter c = true := by
  intro cs
  induction cs with
  | nil => intro h; simp [hasBackslashCommand] at h
  | cons a tl ih =>
    intro h
    by_cases ha : a = '\\'
    · subst ha
      cases tl with
      | nil => simp [hasBackslashCommand] at h
      | cons c rest =>
        by_cases hc : isAsciiLetter c = true
        · exact ⟨[], c, rest, rfl, hc⟩
        · have h2 : hasBackslashCommand (c :: rest) = true := by
            rw [hbc_cons_backslash] at h
            simpa [hc] using h
          obtain ⟨pre, c2, suf, heq, hlet⟩ := ih h2
          exact ⟨'\\' :: pre, c2, suf, by rw [heq]; rfl, hlet⟩
    · have h2 : hasBackslashCommand tl = true := by
        rw [hbc_cons_other a tl ha] at h
        exact h
      obtain ⟨pre, c2, suf, heq, hlet⟩ := ih h2
      exact ⟨a :: pre, c2, suf, by rw [heq]; rfl, hlet⟩

theorem string_eq_empty_iff (t : String) : t = "" ↔ t.data = [] := by
  constructor
  · intro h
    rw [h]
  · intro h
    obtain ⟨l⟩ := t
    have h2 : l = [] := h
    subst h2
    rfl

/-! ## C9 — latex_to_svg is total with a fallback -/

/-- C9: whatever the renderer does, `latex_to_svg` returns bytes (it is a
total function over every renderer outcome, including a raised exception,
modelled as `.error`): when rendering raises, or the rendered SVG has no
usable viewBox (absent, malformed, unparseable numbers, or width/height
below 0.5 — the concrete conjuncts below exercise each case against the
embedded `svgViewboxEmpty`), the fallback SVG built from the escaped input
text is returned, and the fallback opens with the `<svg` tag; otherwise the
renderer's own output is returned unchanged. -/
theorem latex_to_svg_total_fallback (render : List Char → Except Unit (List Char))
    (text color : List Char) (size : ℚ) :
    listStartsWith "<svg".data (fallbackSvg text color size) = true
    ∧ (render (mathInput text) = .error () →
        latex_to_svg render text color size = fallbackSvg text color size)
    ∧ (∀ svg, render (mathInput text) = .ok svg →
        latex_to_svg render text color size =
          if svgViewboxEmpty svg = true then fallbackSvg text color size else svg)
    ∧ svgViewboxEmpty "<svg></svg>".data = true
    ∧ svgViewboxEmpty "<svg viewBox=\"0 0 0 0\"></svg>".data = true
    ∧ svgViewboxEmpty "<svg viewBox=\"0 0 0.25 80\"></svg>".data = true
    ∧ svgViewboxEmpty "<svg viewBox=\"0 0 bad 80\"></svg>".data = true
    ∧ svgViewboxEmpty "<svg viewBox=\"0 0 100\"></svg>".data = true
    ∧ svgViewboxEmpty "<svg viewBox=\"0 0 100 50\"></svg>".data = false := by
  refine ⟨fallback_starts_svg text color size, ?_, ?_,
    by decide, by decide, by decide, by decide, by decide, by decide⟩
  · intro h
    simp [latex_to_svg, h]
  · intro svg h
    simp [latex_to_svg, h]

/-! ## C10 — the is_latex characterization -/

/-- C10: `is_latex` returns true exactly for a non-empty string holding a
dollar sign, a backslash immediately followed by an ASCII letter, or a
caret or underscore; in particular it returns false on the empty string and
on plain text such as "hello world". -/
theorem is_latex_characterization :
    (∀ t : String, is_latex t = true ↔
      (t ≠ "" ∧ (t.data.contains '$' = true
        ∨ (∃ pre c suf, t.data = pre ++ '\\' :: c :: suf ∧ isAsciiLetter c = true)
        ∨ t.data.any (fun c => c = '^' || c = '_') = true)))
    ∧ is_latex "" = false ∧ is_latex "hello world" = false := by
  refine ⟨?_, by decide, by decide⟩
  intro t
  constructor
  · intro h
    have h0 : t.data.isEmpty = false := by
      cases hie : t.data.isEmpty
      · rfl
      · exfalso
        unfold is_latex at h
        rw [hie] at h
        simp at h
    refine ⟨?_, ?_⟩
    · intro he
      rw [(string_eq_empty_iff t).mp he] at h0
      simp at h0
    · by_cases h1 : t.data.contains '$' = true
      · exact Or.inl h1
      · by_cases h2 : hasBackslashCommand t.data = true
        · exact Or.inr (Or.inl (hbc_sound t.data h2))
        · have h3 : t.data.any (fun c => c = '^' || c = '_') = true := by
            unfold is_latex at h
            rw [h0] at h
            simp only [Bool.false_eq_true, if_false] at h
            rw [if_neg h1, if_neg h2] at h
            by_cases h3 : t.data.any (fun c => c = '^' || c = '_') = true
            · exact h3
            · rw [if_neg h3] at h
              exact absurd h (by simp)
          exact Or.inr (Or.inr h3)
  · rintro ⟨hne, hcase⟩
    have h0 : t.data.isEmpty = false := by
      cases hl : t.data with
      | nil => exact absurd ((string_eq_empty_iff t).mpr hl) hne
      | cons a l => rfl
    unfold is_latex
    rw [h0]
    simp only [Bool.false_eq_true, if_false]
    rcases hcase with h1 | ⟨pre, c, suf, heq, hc⟩ | h3
    · rw [if_pos h1]
    · have h2 : hasBackslashCommand t.data = true := by
        rw [heq]
        exact hbc_complete pre c suf hc
      by_cases h1 : t.data.contains '$' = true
      · rw [if_pos h1]
      · rw [if_neg h1, if_pos h2]
    · by_cases h1 : t.data.contains '$' = true
      · rw [if_pos h1]
      · by_cases h2 : hasBackslashCommand t.data = true
        · rw [if_neg h1, if_pos h2]
        · rw [if_neg h1, if_neg h2, if_pos h3]

end ZxLive
